import Mathlib

/-!
Shallow embedding of `src/main.cpp` of the Kolmogorov–Zabih disparity
program: the fraction decoder (`GetFraction`), the rational parameter
normalizer (`multLambdaK`, `setLambda`, `setLambda1`, `setLambda2`,
`setK`, `gcd`, `fix_parameters`) and the option-processing and output
branch of `main`.

C `int` arithmetic is modelled by `Int` (no wraparound is exercised by
the claims), C truncated division and modulus by `Int.tdiv` / `Int.tmod`,
and the `float` working value of the auto-lambda derivation by `ℚ`
(every IEEE float value is a rational; doubling and the comparison with
3 are exact float operations).  The solver (`Match`) is external: its
automatic estimate `GetK()` enters as an explicit rational parameter,
and the calls `SetParameters` / `GetK` / `KZ2` / `SaveXLeft` /
`SaveScaledXLeft` are recorded as events in a trace.
-/

namespace DisparityGC

/-- Pixel dissimilarity metric of `Match::Parameters::dataCost`. -/
inductive DataCost where
  | L1
  | L2
deriving DecidableEq

/-- The `Match::Parameters` struct handed to the solver. -/
structure Parameters where
  dataCost : DataCost
  denominator : Int
  edgeThresh : Int
  lambda1 : Int
  lambda2 : Int
  K : Int
  maxIter : Int
  bRandomizeEveryIteration : Bool
deriving DecidableEq

/-- The default `params` initialized at the top of `main` (lines 144-149). -/
def defaultParams : Parameters :=
  { dataCost := DataCost.L2
    denominator := 1
    edgeThresh := 8
    lambda1 := -1
    lambda2 := -1
    K := -1
    maxIter := 4
    bRandomizeEveryIteration := false }

/-! ### The fraction decoder `GetFraction` (lines 46-56)

`GetFraction` relies on `sscanf(s, "%d/%d")` and `sscanf(s, "%d")`.
A `%d` conversion skips leading whitespace, accepts an optional sign and
then a non-empty digit string, and stops at the first non-digit; a
literal `/` in the format must match the immediately following input
character.  On a failed conversion the output arguments keep their
previous values, so the model threads the prior contents of
`numerator` / `denominator` through the call. -/

/-- Numeric value of a decimal digit character. -/
def digitVal (c : Char) : Nat := c.toNat - 48

/-- Consume a maximal run of decimal digits, accumulating their value. -/
def takeDigits : List Char → Nat → Nat × List Char
  | [], acc => (acc, [])
  | c :: cs, acc =>
    if c.isDigit then takeDigits cs (10 * acc + digitVal c) else (acc, c :: cs)

/-- One `%d` conversion of `sscanf`: skip whitespace, optional sign,
then at least one digit; returns the value and the unconsumed rest, or
`none` on a matching failure. -/
def scanInt (cs0 : List Char) : Option (Int × List Char) :=
  let cs := cs0.dropWhile Char.isWhitespace
  match cs with
  | [] => none
  | '-' :: rest =>
    match rest with
    | [] => none
    | c :: _ =>
      if c.isDigit then
        let p := takeDigits rest 0
        some (-(p.1 : Int), p.2)
      else none
  | '+' :: rest =>
    match rest with
    | [] => none
    | c :: _ =>
      if c.isDigit then
        let p := takeDigits rest 0
        some ((p.1 : Int), p.2)
      else none
  | c :: _ =>
    if c.isDigit then
      let p := takeDigits cs 0
      some ((p.1 : Int), p.2)
    else none

/-- `GetFraction` (lines 46-56).  `num0` and `den0` are the values held
by the caller's `numerator` / `denominator` variables before the call
(they survive when no conversion succeeds).  Returns
`(ok, numerator, denominator)`. -/
def GetFraction (s : String) (num0 den0 : Int) : Bool × Int × Int :=
  if s = "AUTO" then (true, -1, 1)
  else
    let nd :=
      match scanInt s.data with
      | none => (num0, den0)
      | some (n1, rest) =>
        match rest with
        | '/' :: rest2 =>
          match scanInt rest2 with
          | some (n2, _) => (n1, n2)
          | none => (n1, 1)
        | _ => (n1, 1)
    (decide (0 ≤ nd.1 ∧ 1 ≤ nd.2), nd)

/-! ### The rescale primitive (lines 59-90) -/

/-- `multLambdaK` (lines 59-65): multiply `lambda`, `lambda1`,
`lambda2`, `K`, `denominator` by the five given factors.  The factor
array is fully evaluated before the call in C, so the update is
simultaneous. -/
def multLambdaK (lambda d0 d1 d2 d3 d4 : Int) (p : Parameters) :
    Int × Parameters :=
  (lambda * d0,
   { p with
     lambda1 := p.lambda1 * d1
     lambda2 := p.lambda2 * d2
     K := p.K * d3
     denominator := p.denominator * d4 })

/-- `setLambda` (lines 69-72): set `lambda` to value `lambda/denom`. -/
def setLambda (lambda denom : Int) (p : Parameters) : Int × Parameters :=
  multLambdaK lambda p.denominator denom denom denom denom p

/-- `setLambda1` (lines 75-78): set `lambda1` to value `lambda1/denom`. -/
def setLambda1 (lambda denom : Int) (p : Parameters) : Int × Parameters :=
  multLambdaK lambda denom p.denominator denom denom denom p

/-- `setLambda2` (lines 81-84): set `lambda2` to value `lambda2/denom`. -/
def setLambda2 (lambda denom : Int) (p : Parameters) : Int × Parameters :=
  multLambdaK lambda denom denom p.denominator denom denom p

/-- `setK` (lines 87-90): set `params.K` to value `params.K/denom`. -/
def setK (lambda denom : Int) (p : Parameters) : Int × Parameters :=
  multLambdaK lambda denom denom denom p.denominator denom p

/-! ### The recursive Euclidean gcd (lines 93-97) -/

/-- `gcd` of `main.cpp` (lines 93-97): recursive Euclid with C `%`. -/
def cgcd (a b : Int) : Int :=
  if b = 0 then a
  else cgcd b (a.tmod b)
termination_by b.natAbs
decreasing_by
  rename_i hb
  have h : (a.tmod b).natAbs = a.natAbs % b.natAbs := by
    cases a <;> cases b <;>
      simp only [Int.tmod, Int.natAbs_neg, Int.natAbs_ofNat, ← Int.natCast_succ,
        ← Int.ofNat_emod, Int.ofNat_eq_coe, Int.natAbs_negSucc]
  rw [h]
  exact Nat.mod_lt _ (Int.natAbs_pos.mpr hb)

/-! ### The auto-lambda doubling loop (lines 112-113)

`K /= 5; int denom = 1; while(K < 3) { K *= 2; denom *= 2; }` —
modelled with explicit fuel; a separate theorem shows the fuel
suffices whenever the working value is positive. -/

/-- One fuelled execution of the doubling loop body `while(K < 3)`. -/
def doubleLoopF : Nat → ℚ → Int → ℚ × Int
  | 0, w, d => (w, d)
  | n + 1, w, d => if w < 3 then doubleLoopF n (w * 2) (d * 2) else (w, d)

/-- Fuel that always suffices for a positive working value. -/
def loopFuel (w : ℚ) : Nat := 3 * w.den + 1

/-- The doubling loop of lines 112-113. -/
def doubleLoop (w : ℚ) (d : Int) : ℚ × Int := doubleLoopF (loopFuel w) w d

/-- The C cast `int(x)` on a non-negative quantity: truncation toward
zero of a rational. -/
def truncQ (x : ℚ) : Int := x.num.tdiv (x.den : Int)

/-! ### `fix_parameters` (lines 105-140) with its solver-call trace -/

/-- Observable calls into the external solver and output actions of
`main`. -/
inductive Ev where
  | setParams (p : Parameters)
  | queryK
  | kz2
  | saveXLeft
  | saveScaledXLeft
  | printK
  | printLambda
deriving DecidableEq

/-- Lines 106-116: if `lambda < 0`, derive it from `K` (querying the
solver when `K ≤ 0`), with the doubling loop and the rescale of the
bundle.  Returns `(lambda, params, trace)`. -/
def fixPhase1 (getK : ℚ) (p0 : Parameters) (lambda0 : Int) :
    Int × Parameters × List Ev :=
  if lambda0 < 0 then
    let kf0 : ℚ := (p0.K : ℚ) / (p0.denominator : ℚ)
    let kt : ℚ × List Ev :=
      if p0.K ≤ 0 then (getK, [Ev.setParams p0, Ev.queryK]) else (kf0, [])
    let wd := doubleLoop (kt.1 / 5) 1
    let lam := truncQ (wd.1 + 1 / 2)
    let lp := setLambda lam wd.2 p0
    (lp.1, lp.2, kt.2)
  else (lambda0, p0, [])

/-- Lines 117-119: defaults `K = 5*lambda`, `lambda1 = 3*lambda`,
`lambda2 = lambda` for fields still negative. -/
def fixDefaults (p : Parameters) (lambda : Int) : Parameters :=
  { p with
    K := if p.K < 0 then 5 * lambda else p.K
    lambda1 := if p.lambda1 < 0 then 3 * lambda else p.lambda1
    lambda2 := if p.lambda2 < 0 then lambda else p.lambda2 }

/-- Lines 120-131: group gcd and reduction; returns the reduced
parameters and `denomLambda` (which the code sets to the gcd when it
exceeds 1, line 126). -/
def fixReduce (p : Parameters) : Parameters × Int :=
  let denom := cgcd p.K (cgcd p.lambda1 (cgcd p.lambda2 p.denominator))
  let denomLambda := p.denominator
  if 1 < denom then
    ({ p with
       K := p.K.tdiv denom
       lambda1 := p.lambda1.tdiv denom
       lambda2 := p.lambda2.tdiv denom
       denominator := p.denominator.tdiv denom }, denom)
  else (p, denomLambda)

/-- Result of `fix_parameters`: the finalized bundle, the reporting
pair `(lambda, denomLambda)` and the trace of solver calls. -/
structure FixResult where
  params : Parameters
  lambda : Int
  denomLambda : Int
  trace : List Ev
deriving DecidableEq

/-- Lines 133-138: reduce the reporting fraction `lambda/denomLambda`
by its own gcd. -/
def reducePair (lam dl : Int) : Int × Int :=
  let g2 := cgcd lam dl
  if 1 < g2 then (lam.tdiv g2, dl.tdiv g2) else (lam, dl)

/-- `fix_parameters` (lines 105-140). -/
def fix_parameters (getK : ℚ) (p0 : Parameters) (lambda0 : Int) : FixResult :=
  let a := fixPhase1 getK p0 lambda0
  let p2 := fixDefaults a.2.1 a.1
  let rd := fixReduce p2
  let tr := a.2.2 ++ [Ev.setParams rd.1]
  let fin := reducePair a.1 rd.2
  { params := rd.1, lambda := fin.1, denomLambda := fin.2, trace := tr }

/-! ### Option processing in `main` (lines 193-213) and the output
branch (lines 246-259) -/

/-- Lines 194-198 of `main`: if `-l` was given, `GetFraction` writes
the numerator into `lambda` and `setLambda` rescales. -/
def stepLambda (o : Option (Int × Int)) (s : Int × Parameters) :
    Int × Parameters :=
  match o with
  | none => s
  | some nd => setLambda nd.1 nd.2 s.2

/-- Lines 199-203 of `main`: `--lambda1` writes into `params.lambda1`
and `setLambda1` rescales. -/
def stepLambda1 (o : Option (Int × Int)) (s : Int × Parameters) :
    Int × Parameters :=
  match o with
  | none => s
  | some nd => setLambda1 s.1 nd.2 { s.2 with lambda1 := nd.1 }

/-- Lines 204-208 of `main`: `--lambda2` writes into `params.lambda2`
and `setLambda2` rescales. -/
def stepLambda2 (o : Option (Int × Int)) (s : Int × Parameters) :
    Int × Parameters :=
  match o with
  | none => s
  | some nd => setLambda2 s.1 nd.2 { s.2 with lambda2 := nd.1 }

/-- Lines 209-213 of `main`: `-k` writes into `params.K` and `setK`
rescales. -/
def stepK (o : Option (Int × Int)) (s : Int × Parameters) :
    Int × Parameters :=
  match o with
  | none => s
  | some nd => setK s.1 nd.2 { s.2 with K := nd.1 }

/-- Lines 193-213 of `main`: apply the (already successfully decoded)
optional fractions for `lambda`, `lambda1`, `lambda2`, `K`, in that
order, starting from the default bundle and `lambda = -1`.
Returns `(lambda, params)`. -/
def processOptions (ol o1 o2 ok : Option (Int × Int)) : Int × Parameters :=
  stepK ok (stepLambda2 o2 (stepLambda1 o1 (stepLambda ol (-1, defaultParams))))

/-- Lines 246-259 of `main`: run the expansion-move computation and
save outputs when a fifth positional argument (`argc > 5`) or an
output flag (`-o`, non-empty `sDisp`) was given; otherwise print the
resolved `K` and `lambda`. -/
def outputPhase (argc : Nat) (sDisp : String) : List Ev :=
  if 5 < argc ∨ sDisp ≠ "" then
    [Ev.kz2] ++ (if 5 < argc then [Ev.saveXLeft] else []) ++
      (if sDisp ≠ "" then [Ev.saveScaledXLeft] else [])
  else [Ev.printK, Ev.printLambda]

/-- The solver-visible trace of one whole (validation-passing) run:
option processing, `fix_parameters`, then the output branch. -/
def runTrace (getK : ℚ) (ol o1 o2 ok : Option (Int × Int))
    (argc : Nat) (sDisp : String) : List Ev :=
  let lp := processOptions ol o1 o2 ok
  let r := fix_parameters getK lp.2 lp.1
  r.trace ++ outputPhase argc sDisp

/-- Recognize a `SetParameters` event. -/
def isSetParams : Ev → Bool
  | Ev.setParams _ => true
  | _ => false

/-- Recognize a `KZ2` (expansion-move) event. -/
def isKZ2 : Ev → Bool
  | Ev.kz2 => true
  | _ => false

/-- A decoded fraction as the validated call sites produce it: either
an explicit value (numerator ≥ 0, denominator ≥ 1) or the AUTO
sentinel `(-1, 1)`. -/
def legalFrac : Option (Int × Int) → Prop
  | none => True
  | some nd => (0 ≤ nd.1 ∧ 1 ≤ nd.2) ∨ nd = (-1, 1)

/-! ## General lemmas about the embedded operations -/

/-- C truncated remainder agrees with natural remainder in absolute
value. -/
theorem natAbs_tmod (a b : Int) : (a.tmod b).natAbs = a.natAbs % b.natAbs := by
  cases a <;> cases b <;>
    simp only [Int.tmod, Int.natAbs_neg, Int.natAbs_ofNat, ← Int.natCast_succ,
      ← Int.ofNat_emod, Int.ofNat_eq_coe, Int.natAbs_negSucc]

/-- C truncated remainder of a non-negative dividend is non-negative. -/
theorem tmod_nonneg_of_nonneg (a b : Int) (ha : 0 ≤ a) : 0 ≤ a.tmod b := by
  cases a with
  | ofNat m => cases b <;> exact Int.ofNat_nonneg _
  | negSucc m => exact absurd ha (by simp)

/-- On non-negative inputs the C `gcd` computes the mathematical gcd. -/
theorem cgcd_eq_gcd (a b : Int) (ha : 0 ≤ a) (hb : 0 ≤ b) :
    cgcd a b = ((Int.gcd a b : ℕ) : Int) := by
  induction a, b using cgcd.induct with
  | case1 a => rw [cgcd]; simp [Int.gcd, Int.natAbs_of_nonneg ha]
  | case2 a b hb0 ih =>
    rw [cgcd, if_neg hb0]
    have htm : 0 ≤ a.tmod b := tmod_nonneg_of_nonneg a b ha
    rw [ih hb htm]
    have hnat : (a.tmod b).natAbs = a.natAbs % b.natAbs := natAbs_tmod a b
    show ((Int.gcd b (a.tmod b) : ℕ) : Int) = ((Int.gcd a b : ℕ) : Int)
    congr 1
    unfold Int.gcd
    rw [hnat, Nat.gcd_comm b.natAbs, ← Nat.gcd_rec, Nat.gcd_comm]

/-- The result of the C `gcd` on non-negative inputs is non-negative. -/
theorem cgcd_nonneg (a b : Int) (ha : 0 ≤ a) (hb : 0 ≤ b) : 0 ≤ cgcd a b := by
  rw [cgcd_eq_gcd a b ha hb]
  exact Int.natCast_nonneg _

/-- If the doubling-loop guard fails, any amount of fuel returns the
state unchanged. -/
theorem doubleLoopF_of_not_lt (n : Nat) (w : ℚ) (d : Int) (h : ¬ w < 3) :
    doubleLoopF n w d = (w, d) := by
  cases n with
  | zero => rfl
  | succ m => rw [doubleLoopF, if_neg h]

/-- With enough fuel, the doubling loop exits at the first iteration
count `j` with `w * 2 ^ j ≥ 3`, having doubled both components `j`
times. -/
theorem doubleLoopF_spec (n : Nat) : ∀ (w : ℚ) (d : Int), 3 ≤ w * 2 ^ n →
    ∃ j ≤ n, doubleLoopF n w d = (w * 2 ^ j, d * 2 ^ j) ∧
      3 ≤ w * 2 ^ j ∧ ∀ i < j, w * 2 ^ i < 3 := by
  induction n with
  | zero =>
    intro w d h
    refine ⟨0, le_refl 0, ?_, ?_, ?_⟩
    · simp [doubleLoopF]
    · simpa using h
    · intro i hi
      omega
  | succ m ih =>
    intro w d h
    by_cases hw : w < 3
    · have h2 : 3 ≤ w * 2 * 2 ^ m := by
        rw [mul_assoc, ← pow_succ']
        exact h
      obtain ⟨j, hjm, heq, hge, hmin⟩ := ih (w * 2) (d * 2) h2
      have e1 : w * 2 * 2 ^ j = w * 2 ^ (j + 1) := by rw [pow_succ]; ring
      have e2 : d * 2 * 2 ^ j = d * 2 ^ (j + 1) := by rw [pow_succ]; ring
      refine ⟨j + 1, by omega, ?_, ?_, ?_⟩
      · rw [doubleLoopF, if_pos hw, heq, e1, e2]
      · rw [← e1]
        exact hge
      · intro i hi
        cases i with
        | zero => simpa using hw
        | succ i0 =>
          have h3 := hmin i0 (by omega)
          have e3 : w * 2 * 2 ^ i0 = w * 2 ^ (i0 + 1) := by rw [pow_succ]; ring
          rw [← e3]
          exact h3
    · refine ⟨0, by omega, ?_, ?_, ?_⟩
      · simp [doubleLoopF_of_not_lt _ _ _ hw]
      · simpa using not_lt.mp hw
      · intro i hi
        omega

/-- The fuel `loopFuel w` suffices whenever the working value is
positive. -/
theorem loopFuel_sufficient (w : ℚ) (hw : 0 < w) : 3 ≤ w * 2 ^ loopFuel w := by
  have hden : (0 : ℚ) < (w.den : ℚ) := by
    exact_mod_cast w.pos
  have hnum : (1 : ℚ) ≤ (w.num : ℚ) := by
    have : 0 < w.num := Rat.num_pos.mpr hw
    exact_mod_cast this
  have hw1 : (1 : ℚ) / (w.den : ℚ) ≤ w := by
    conv_rhs => rw [← Rat.num_div_den w]
    exact (div_le_div_iff_of_pos_right hden).mpr hnum
  have hpow : (3 * (w.den : ℚ)) ≤ 2 ^ loopFuel w := by
    have h1 : 3 * w.den < 2 ^ (3 * w.den + 1) := by
      calc 3 * w.den < 2 ^ (3 * w.den) := Nat.lt_two_pow _
        _ ≤ 2 ^ (3 * w.den + 1) := Nat.pow_le_pow_right (by omega) (by omega)
    have h2 : ((3 * w.den : ℕ) : ℚ) < (((2 : ℕ) ^ (3 * w.den + 1) : ℕ) : ℚ) := by
      exact_mod_cast h1
    unfold loopFuel
    push_cast at h2
    linarith
  calc (3 : ℚ) = (3 * (w.den : ℚ)) / (w.den : ℚ) := by
        field_simp
    _ ≤ (2 ^ loopFuel w) / (w.den : ℚ) := (div_le_div_iff_of_pos_right hden).mpr hpow
    _ = (1 / (w.den : ℚ)) * 2 ^ loopFuel w := by ring
    _ ≤ w * 2 ^ loopFuel w := by
        apply mul_le_mul_of_nonneg_right hw1
        positivity

/-- Characterization of the doubling loop of lines 112-113 for a
positive working value: both components are doubled the minimal number
of times needed to bring the working value to at least 3. -/
theorem doubleLoop_spec (w : ℚ) (hw : 0 < w) (d : Int) :
    ∃ j : ℕ, doubleLoop w d = (w * 2 ^ j, d * 2 ^ j) ∧
      3 ≤ w * 2 ^ j ∧ ∀ i < j, w * 2 ^ i < 3 := by
  obtain ⟨j, _, heq, hge, hmin⟩ :=
    doubleLoopF_spec (loopFuel w) w d (loopFuel_sufficient w hw)
  exact ⟨j, heq, hge, hmin⟩

/-- Truncation toward zero of a non-negative rational is non-negative. -/
theorem truncQ_nonneg (x : ℚ) (hx : 0 ≤ x) : 0 ≤ truncQ x := by
  unfold truncQ
  exact Int.tdiv_nonneg (Rat.num_nonneg.mpr hx) (by exact_mod_cast Nat.zero_le _)

/-- Multiplying by a factor that is at least 1 preserves being at
least 1. -/
theorem one_le_mulI (a b : Int) (ha : 1 ≤ a) (hb : 1 ≤ b) : 1 ≤ a * b := by
  nlinarith

/-- Multiplying by a factor that is at least 1 preserves negativity. -/
theorem neg_mulI (a b : Int) (ha : a < 0) (hb : 1 ≤ b) : a * b < 0 :=
  mul_neg_of_neg_of_pos ha (by omega)

/-! ## Lemmas about the phases of `fix_parameters` -/

/-- When `lambda` is already resolved (non-negative), phase 1 is the
identity. -/
theorem fixPhase1_of_nonneg (getK : ℚ) (p0 : Parameters) (lambda0 : Int)
    (h : 0 ≤ lambda0) : fixPhase1 getK p0 lambda0 = (lambda0, p0, []) := by
  unfold fixPhase1
  rw [if_neg (by omega)]

/-- Phase 1 always hands phase 2 a non-negative `lambda` and a
denominator that is at least 1 (given a positive automatic `K`
estimate). -/
theorem fixPhase1_spec (getK : ℚ) (p0 : Parameters) (lambda0 : Int)
    (hd : 1 ≤ p0.denominator) (hK : 0 < getK) :
    0 ≤ (fixPhase1 getK p0 lambda0).1 ∧
      1 ≤ (fixPhase1 getK p0 lambda0).2.1.denominator := by
  by_cases hlam : lambda0 < 0
  · unfold fixPhase1
    rw [if_pos hlam]
    have hw : 0 < (if p0.K ≤ 0 then (getK, [Ev.setParams p0, Ev.queryK])
        else ((p0.K : ℚ) / (p0.denominator : ℚ), ([] : List Ev))).1 / 5 := by
      split
      · positivity
      · rename_i hKpos
        push_neg at hKpos
        have h1 : (0 : ℚ) < (p0.K : ℚ) := by exact_mod_cast hKpos
        have h2 : (0 : ℚ) < (p0.denominator : ℚ) := by
          have : (0 : Int) < p0.denominator := by omega
          exact_mod_cast this
        positivity
    obtain ⟨j, heq, hge, -⟩ := doubleLoop_spec _ hw 1
    simp only [heq, setLambda, multLambdaK]
    constructor
    · apply mul_nonneg
      · apply truncQ_nonneg
        linarith
      · omega
    · apply one_le_mulI _ _ hd
      apply one_le_mulI _ _ (by omega)
      have : (0 : Int) < 2 ^ j := pow_pos (by omega) j
      omega
  · rw [fixPhase1_of_nonneg getK p0 lambda0 (by omega)]
    exact ⟨by omega, hd⟩

/-- After the defaults of lines 117-119 with a non-negative `lambda`,
all three coefficient fields are non-negative, already-non-negative
fields are kept, and nothing else changes. -/
theorem fixDefaults_spec (p : Parameters) (lam : Int) (hlam : 0 ≤ lam) :
    0 ≤ (fixDefaults p lam).K ∧ 0 ≤ (fixDefaults p lam).lambda1 ∧
      0 ≤ (fixDefaults p lam).lambda2 ∧
      (fixDefaults p lam).denominator = p.denominator ∧
      (0 ≤ p.K → (fixDefaults p lam).K = p.K) ∧
      (0 ≤ p.lambda1 → (fixDefaults p lam).lambda1 = p.lambda1) ∧
      (0 ≤ p.lambda2 → (fixDefaults p lam).lambda2 = p.lambda2) := by
  unfold fixDefaults
  refine ⟨?_, ?_, ?_, rfl, ?_, ?_, ?_⟩ <;> simp only <;> split <;> omega

/-- The gcd reduction of lines 120-131: on a bundle with non-negative
coefficients and positive denominator it preserves signs, makes the
group gcd of the four integers equal to 1, and preserves every
coefficient's rational value. -/
theorem fixReduce_spec (p : Parameters) (hK : 0 ≤ p.K) (h1 : 0 ≤ p.lambda1)
    (h2 : 0 ≤ p.lambda2) (hd : 1 ≤ p.denominator) :
    0 ≤ (fixReduce p).1.K ∧ 0 ≤ (fixReduce p).1.lambda1 ∧
      0 ≤ (fixReduce p).1.lambda2 ∧ 1 ≤ (fixReduce p).1.denominator ∧
      1 ≤ (fixReduce p).2 ∧
      Int.gcd (fixReduce p).1.K
        ((Int.gcd (fixReduce p).1.lambda1
          ((Int.gcd (fixReduce p).1.lambda2 (fixReduce p).1.denominator : ℕ) :
            Int) : ℕ) : Int) = 1 ∧
      ((fixReduce p).1.K : ℚ) / ((fixReduce p).1.denominator : ℚ)
        = (p.K : ℚ) / (p.denominator : ℚ) ∧
      ((fixReduce p).1.lambda1 : ℚ) / ((fixReduce p).1.denominator : ℚ)
        = (p.lambda1 : ℚ) / (p.denominator : ℚ) ∧
      ((fixReduce p).1.lambda2 : ℚ) / ((fixReduce p).1.denominator : ℚ)
        = (p.lambda2 : ℚ) / (p.denominator : ℚ) := by
  have hd0 : (0 : Int) ≤ p.denominator := by omega
  have hchain : cgcd p.K (cgcd p.lambda1 (cgcd p.lambda2 p.denominator)) =
      ((Int.gcd p.K ((Int.gcd p.lambda1
        ((Int.gcd p.lambda2 p.denominator : ℕ) : Int) : ℕ) : Int) : ℕ) : Int) := by
    rw [cgcd_eq_gcd p.lambda2 p.denominator h2 hd0,
      cgcd_eq_gcd p.lambda1 _ h1 (Int.natCast_nonneg _),
      cgcd_eq_gcd p.K _ hK (Int.natCast_nonneg _)]
  set G : ℕ := Int.gcd p.K ((Int.gcd p.lambda1
    ((Int.gcd p.lambda2 p.denominator : ℕ) : Int) : ℕ) : Int) with hGdef
  have hGpos : 0 < G := by
    rcases Nat.eq_zero_or_pos G with h0 | h0
    · exfalso
      obtain ⟨-, hmid⟩ := Int.gcd_eq_zero_iff.mp h0
      have hmid0 : Int.gcd p.lambda1
          ((Int.gcd p.lambda2 p.denominator : ℕ) : Int) = 0 := by
        exact_mod_cast hmid
      obtain ⟨-, hinn⟩ := Int.gcd_eq_zero_iff.mp hmid0
      have hinn0 : Int.gcd p.lambda2 p.denominator = 0 := by exact_mod_cast hinn
      obtain ⟨-, hdz⟩ := Int.gcd_eq_zero_iff.mp hinn0
      omega
    · exact h0
  have hdK : (G : Int) ∣ p.K := Int.gcd_dvd_left
  have hdL1 : (G : Int) ∣ p.lambda1 :=
    dvd_trans Int.gcd_dvd_right Int.gcd_dvd_left
  have hdL2 : (G : Int) ∣ p.lambda2 :=
    dvd_trans Int.gcd_dvd_right (dvd_trans Int.gcd_dvd_right Int.gcd_dvd_left)
  have hdD : (G : Int) ∣ p.denominator :=
    dvd_trans Int.gcd_dvd_right (dvd_trans Int.gcd_dvd_right Int.gcd_dvd_right)
  by_cases hg : 1 < ((G : ℕ) : Int)
  · obtain ⟨K1, hK1⟩ := hdK
    obtain ⟨L1, hL1⟩ := hdL1
    obtain ⟨L2, hL2⟩ := hdL2
    obtain ⟨D1, hD1⟩ := hdD
    have hGne : ((G : ℕ) : Int) ≠ 0 := by omega
    have hGposI : (0 : Int) < (G : ℕ) := by omega
    have hfix : fixReduce p =
        ({ p with
           K := K1, lambda1 := L1, lambda2 := L2, denominator := D1 },
         ((G : ℕ) : Int)) := by
      unfold fixReduce
      rw [hchain, if_pos hg, hK1, hL1, hL2, hD1,
        Int.mul_tdiv_cancel_left _ hGne, Int.mul_tdiv_cancel_left _ hGne,
        Int.mul_tdiv_cancel_left _ hGne, Int.mul_tdiv_cancel_left _ hGne]
    have hK1n : 0 ≤ K1 := by
      by_contra hneg
      push_neg at hneg
      have := mul_neg_of_pos_of_neg hGposI hneg
      rw [← hK1] at this
      omega
    have hL1n : 0 ≤ L1 := by
      by_contra hneg
      push_neg at hneg
      have := mul_neg_of_pos_of_neg hGposI hneg
      rw [← hL1] at this
      omega
    have hL2n : 0 ≤ L2 := by
      by_contra hneg
      push_neg at hneg
      have := mul_neg_of_pos_of_neg hGposI hneg
      rw [← hL2] at this
      omega
    have hD1n : 1 ≤ D1 := by
      rcases lt_or_le D1 0 with hneg | hpos
      · have := mul_neg_of_pos_of_neg hGposI hneg
        rw [← hD1] at this
        omega
      · rcases Nat.eq_zero_or_pos D1.toNat with h0 | h0
        · exfalso
          have hD10 : D1 = 0 := by omega
          rw [hD10, mul_zero] at hD1
          omega
        · omega
    have hsub : G = G * Int.gcd K1 ((Int.gcd L1
        ((Int.gcd L2 D1 : ℕ) : Int) : ℕ) : Int) := by
      conv_lhs => rw [hGdef, hK1, hL1, hL2, hD1]
      rw [Int.gcd_mul_left, Int.natAbs_ofNat]
      rw [show ((G * Int.gcd L2 D1 : ℕ) : Int)
          = ((G : ℕ) : Int) * ((Int.gcd L2 D1 : ℕ) : Int) by push_cast; ring]
      rw [Int.gcd_mul_left, Int.natAbs_ofNat]
      rw [show ((G * Int.gcd L1 ((Int.gcd L2 D1 : ℕ) : Int) : ℕ) : Int)
          = ((G : ℕ) : Int) * ((Int.gcd L1 ((Int.gcd L2 D1 : ℕ) : Int) : ℕ) : Int)
          by push_cast; ring]
      rw [Int.gcd_mul_left, Int.natAbs_ofNat]
    have hone : Int.gcd K1 ((Int.gcd L1
        ((Int.gcd L2 D1 : ℕ) : Int) : ℕ) : Int) = 1 := by
      refine Nat.eq_of_mul_eq_mul_left hGpos ?_
      rw [mul_one]
      exact hsub.symm
    have hGQ : ((G : ℕ) : ℚ) ≠ 0 := Nat.cast_ne_zero.mpr (by omega)
    rw [hfix]
    refine ⟨?_, ?_, ?_, ?_, ?_, ?_, ?_, ?_, ?_⟩
    · exact hK1n
    · exact hL1n
    · exact hL2n
    · exact hD1n
    · omega
    · exact hone
    · rw [hK1, hD1]
      push_cast
      rw [mul_div_mul_left _ _ (by exact_mod_cast hGQ)]
    · rw [hL1, hD1]
      push_cast
      rw [mul_div_mul_left _ _ (by exact_mod_cast hGQ)]
    · rw [hL2, hD1]
      push_cast
      rw [mul_div_mul_left _ _ (by exact_mod_cast hGQ)]
  · have hfix : fixReduce p = (p, p.denominator) := by
      unfold fixReduce
      rw [hchain, if_neg hg]
    have hG1 : G = 1 := by
      have hle : ((G : ℕ) : Int) ≤ 1 := by omega
      have hge : (1 : Int) ≤ ((G : ℕ) : Int) := by exact_mod_cast hGpos
      have : ((G : ℕ) : Int) = 1 := by omega
      exact_mod_cast this
    rw [hfix]
    exact ⟨hK, h1, h2, hd, hd, hG1, rfl, rfl, rfl⟩

/-- The reporting-pair reduction of lines 133-138 keeps the numerator
non-negative and the denominator at least 1. -/
theorem reducePair_spec (lam dl : Int) (hlam : 0 ≤ lam) (hdl : 1 ≤ dl) :
    0 ≤ (reducePair lam dl).1 ∧ 1 ≤ (reducePair lam dl).2 := by
  unfold reducePair
  have hchain : cgcd lam dl = ((Int.gcd lam dl : ℕ) : Int) :=
    cgcd_eq_gcd lam dl hlam (by omega)
  rw [hchain]
  set g : Int := ((Int.gcd lam dl : ℕ) : Int) with hgdef
  by_cases hg : 1 < g
  · rw [if_pos hg]
    have hGne : g ≠ 0 := by omega
    obtain ⟨y, hy⟩ : g ∣ dl := Int.gcd_dvd_right
    constructor
    · exact Int.tdiv_nonneg hlam (by omega)
    · show 1 ≤ dl.tdiv g
      rw [hy, Int.mul_tdiv_cancel_left _ hGne]
      rcases lt_or_le y 0 with hneg | hpos
      · exfalso
        have := mul_neg_of_pos_of_neg (show (0 : Int) < g by omega) hneg
        rw [← hy] at this
        omega
      · rcases eq_or_lt_of_le hpos with h0 | h0
        · exfalso
          rw [← h0, mul_zero] at hy
          omega
        · omega
  · rw [if_neg hg]
    exact ⟨hlam, hdl⟩

/-- Projection: the finalized bundle of `fix_parameters` is the
gcd-reduction of the defaulted phase-1 bundle. -/
theorem fix_parameters_params (getK : ℚ) (p0 : Parameters) (lambda0 : Int) :
    (fix_parameters getK p0 lambda0).params =
      (fixReduce (fixDefaults (fixPhase1 getK p0 lambda0).2.1
        (fixPhase1 getK p0 lambda0).1)).1 := rfl

/-- Projection: the reported `lambda` of `fix_parameters`. -/
theorem fix_parameters_lambda (getK : ℚ) (p0 : Parameters) (lambda0 : Int) :
    (fix_parameters getK p0 lambda0).lambda =
      (reducePair (fixPhase1 getK p0 lambda0).1
        (fixReduce (fixDefaults (fixPhase1 getK p0 lambda0).2.1
          (fixPhase1 getK p0 lambda0).1)).2).1 := rfl

/-- Projection: the reported `denomLambda` of `fix_parameters`. -/
theorem fix_parameters_denomLambda (getK : ℚ) (p0 : Parameters) (lambda0 : Int) :
    (fix_parameters getK p0 lambda0).denomLambda =
      (reducePair (fixPhase1 getK p0 lambda0).1
        (fixReduce (fixDefaults (fixPhase1 getK p0 lambda0).2.1
          (fixPhase1 getK p0 lambda0).1)).2).2 := rfl

/-- Projection: the solver-call trace of `fix_parameters`. -/
theorem fix_parameters_trace (getK : ℚ) (p0 : Parameters) (lambda0 : Int) :
    (fix_parameters getK p0 lambda0).trace =
      (fixPhase1 getK p0 lambda0).2.2 ++
        [Ev.setParams (fix_parameters getK p0 lambda0).params] := rfl

/-- Master validity lemma for `fix_parameters`: for any bundle with
positive denominator and a positive automatic `K` estimate, the
finalized bundle has non-negative coefficients, positive denominator,
group gcd 1, and a well-formed reporting pair. -/
theorem fix_parameters_valid (getK : ℚ) (p0 : Parameters) (lambda0 : Int)
    (hd : 1 ≤ p0.denominator) (hK : 0 < getK) :
    0 ≤ (fix_parameters getK p0 lambda0).params.K ∧
      0 ≤ (fix_parameters getK p0 lambda0).params.lambda1 ∧
      0 ≤ (fix_parameters getK p0 lambda0).params.lambda2 ∧
      1 ≤ (fix_parameters getK p0 lambda0).params.denominator ∧
      Int.gcd (fix_parameters getK p0 lambda0).params.K
        ((Int.gcd (fix_parameters getK p0 lambda0).params.lambda1
          ((Int.gcd (fix_parameters getK p0 lambda0).params.lambda2
            (fix_parameters getK p0 lambda0).params.denominator : ℕ) : Int) : ℕ)
          : Int) = 1 ∧
      0 ≤ (fix_parameters getK p0 lambda0).lambda ∧
      1 ≤ (fix_parameters getK p0 lambda0).denomLambda := by
  obtain ⟨hlam1, hden1⟩ := fixPhase1_spec getK p0 lambda0 hd hK
  obtain ⟨hdK, hd1, hd2, hdden, -, -, -⟩ :=
    fixDefaults_spec (fixPhase1 getK p0 lambda0).2.1
      (fixPhase1 getK p0 lambda0).1 hlam1
  have hdden1 : 1 ≤ (fixDefaults (fixPhase1 getK p0 lambda0).2.1
      (fixPhase1 getK p0 lambda0).1).denominator := by
    rw [hdden]
    exact hden1
  obtain ⟨hrK, hr1, hr2, hrden, hrdl, hrgcd, -, -, -⟩ :=
    fixReduce_spec _ hdK hd1 hd2 hdden1
  obtain ⟨hpl, hpd⟩ := reducePair_spec (fixPhase1 getK p0 lambda0).1
    (fixReduce (fixDefaults (fixPhase1 getK p0 lambda0).2.1
      (fixPhase1 getK p0 lambda0).1)).2 hlam1 hrdl
  rw [fix_parameters_params, fix_parameters_lambda, fix_parameters_denomLambda]
  exact ⟨hrK, hr1, hr2, hrden, hrgcd, hpl, hpd⟩

/-- Ratio-preservation lemma for `fix_parameters`: when `lambda` and
all three coefficients are already resolved (non-negative), the
rational values of `K`, `lambda1`, `lambda2` over the shared
denominator are unchanged by finalization. -/
theorem fix_parameters_ratio (getK : ℚ) (p : Parameters) (lam : Int)
    (hlam : 0 ≤ lam) (hK : 0 ≤ p.K) (h1 : 0 ≤ p.lambda1) (h2 : 0 ≤ p.lambda2)
    (hd : 1 ≤ p.denominator) :
    ((fix_parameters getK p lam).params.K : ℚ) /
        ((fix_parameters getK p lam).params.denominator : ℚ)
      = (p.K : ℚ) / (p.denominator : ℚ) ∧
    ((fix_parameters getK p lam).params.lambda1 : ℚ) /
        ((fix_parameters getK p lam).params.denominator : ℚ)
      = (p.lambda1 : ℚ) / (p.denominator : ℚ) ∧
    ((fix_parameters getK p lam).params.lambda2 : ℚ) /
        ((fix_parameters getK p lam).params.denominator : ℚ)
      = (p.lambda2 : ℚ) / (p.denominator : ℚ) := by
  have hph1 : fixPhase1 getK p lam = (lam, p, []) :=
    fixPhase1_of_nonneg getK p lam hlam
  have hdef : fixDefaults p lam = p := by
    obtain ⟨-, -, -, -, hKkeep, h1keep, h2keep⟩ := fixDefaults_spec p lam hlam
    unfold fixDefaults at hKkeep h1keep h2keep ⊢
    have e1 := hKkeep hK
    have e2 := h1keep h1
    have e3 := h2keep h2
    simp only at e1 e2 e3
    simp only [e1, e2, e3]
  obtain ⟨-, -, -, -, -, -, hqK, hq1, hq2⟩ := fixReduce_spec p hK h1 h2 hd
  rw [fix_parameters_params, hph1]
  simp only [hdef]
  exact ⟨hqK, hq1, hq2⟩

/-- Multiplication by a factor that is at least 1 preserves the sign of
an integer exactly. -/
theorem mul_neg_iff_one_le (a c : Int) (hc : 1 ≤ c) : a * c < 0 ↔ a < 0 := by
  constructor
  · intro h
    by_contra hnn
    push_neg at hnn
    nlinarith
  · intro h
    nlinarith

/-- Sign bookkeeping for the `lambda` override step. -/
theorem stepLambda_spec (o : Option (Int × Int)) (s : Int × Parameters)
    (ho : legalFrac o) (hden : 1 ≤ s.2.denominator) :
    1 ≤ (stepLambda o s).2.denominator ∧
      ((stepLambda o s).1 < 0 ↔ (o = none ∧ s.1 < 0) ∨ o = some (-1, 1)) ∧
      ((stepLambda o s).2.lambda1 < 0 ↔ s.2.lambda1 < 0) ∧
      ((stepLambda o s).2.lambda2 < 0 ↔ s.2.lambda2 < 0) ∧
      ((stepLambda o s).2.K < 0 ↔ s.2.K < 0) := by
  rcases o with _ | ⟨n, d⟩
  · simp [stepLambda, hden]
  · have hd : 1 ≤ d := by
      rcases ho with ⟨-, hd⟩ | heq
      · exact hd
      · rw [Prod.mk.injEq] at heq
        omega
    simp only [stepLambda, setLambda, multLambdaK]
    refine ⟨one_le_mulI _ _ hden hd, ?_, mul_neg_iff_one_le _ _ hd,
      mul_neg_iff_one_le _ _ hd, mul_neg_iff_one_le _ _ hd⟩
    rw [mul_neg_iff_one_le _ _ hden]
    rcases ho with ⟨hn, -⟩ | heq
    · simp only [reduceCtorEq, false_and, false_or, Option.some.injEq,
        Prod.mk.injEq]
      omega
    · rw [Prod.mk.injEq] at heq
      simp only [reduceCtorEq, false_and, false_or, Option.some.injEq,
        Prod.mk.injEq]
      omega

/-- Sign bookkeeping for the `lambda1` override step. -/
theorem stepLambda1_spec (o : Option (Int × Int)) (s : Int × Parameters)
    (ho : legalFrac o) (hden : 1 ≤ s.2.denominator) :
    1 ≤ (stepLambda1 o s).2.denominator ∧
      ((stepLambda1 o s).1 < 0 ↔ s.1 < 0) ∧
      ((stepLambda1 o s).2.lambda1 < 0 ↔ (o = none ∧ s.2.lambda1 < 0) ∨
        o = some (-1, 1)) ∧
      ((stepLambda1 o s).2.lambda2 < 0 ↔ s.2.lambda2 < 0) ∧
      ((stepLambda1 o s).2.K < 0 ↔ s.2.K < 0) := by
  rcases o with _ | ⟨n, d⟩
  · simp [stepLambda1, hden]
  · have hd : 1 ≤ d := by
      rcases ho with ⟨-, hd⟩ | heq
      · exact hd
      · rw [Prod.mk.injEq] at heq
        omega
    simp only [stepLambda1, setLambda1, multLambdaK]
    refine ⟨one_le_mulI _ _ hden hd, mul_neg_iff_one_le _ _ hd, ?_,
      mul_neg_iff_one_le _ _ hd, mul_neg_iff_one_le _ _ hd⟩
    rw [mul_neg_iff_one_le _ _ hden]
    rcases ho with ⟨hn, -⟩ | heq
    · simp only [reduceCtorEq, false_and, false_or, Option.some.injEq,
        Prod.mk.injEq]
      omega
    · rw [Prod.mk.injEq] at heq
      simp only [reduceCtorEq, false_and, false_or, Option.some.injEq,
        Prod.mk.injEq]
      omega

/-- Sign bookkeeping for the `lambda2` override step. -/
theorem stepLambda2_spec (o : Option (Int × Int)) (s : Int × Parameters)
    (ho : legalFrac o) (hden : 1 ≤ s.2.denominator) :
    1 ≤ (stepLambda2 o s).2.denominator ∧
      ((stepLambda2 o s).1 < 0 ↔ s.1 < 0) ∧
      ((stepLambda2 o s).2.lambda1 < 0 ↔ s.2.lambda1 < 0) ∧
      ((stepLambda2 o s).2.lambda2 < 0 ↔ (o = none ∧ s.2.lambda2 < 0) ∨
        o = some (-1, 1)) ∧
      ((stepLambda2 o s).2.K < 0 ↔ s.2.K < 0) := by
  rcases o with _ | ⟨n, d⟩
  · simp [stepLambda2, hden]
  · have hd : 1 ≤ d := by
      rcases ho with ⟨-, hd⟩ | heq
      · exact hd
      · rw [Prod.mk.injEq] at heq
        omega
    simp only [stepLambda2, setLambda2, multLambdaK]
    refine ⟨one_le_mulI _ _ hden hd, mul_neg_iff_one_le _ _ hd,
      mul_neg_iff_one_le _ _ hd, ?_, mul_neg_iff_one_le _ _ hd⟩
    rw [mul_neg_iff_one_le _ _ hden]
    rcases ho with ⟨hn, -⟩ | heq
    · simp only [reduceCtorEq, false_and, false_or, Option.some.injEq,
        Prod.mk.injEq]
      omega
    · rw [Prod.mk.injEq] at heq
      simp only [reduceCtorEq, false_and, false_or, Option.some.injEq,
        Prod.mk.injEq]
      omega

/-- Sign bookkeeping for the `K` override step. -/
theorem stepK_spec (o : Option (Int × Int)) (s : Int × Parameters)
    (ho : legalFrac o) (hden : 1 ≤ s.2.denominator) :
    1 ≤ (stepK o s).2.denominator ∧
      ((stepK o s).1 < 0 ↔ s.1 < 0) ∧
      ((stepK o s).2.lambda1 < 0 ↔ s.2.lambda1 < 0) ∧
      ((stepK o s).2.lambda2 < 0 ↔ s.2.lambda2 < 0) ∧
      ((stepK o s).2.K < 0 ↔ (o = none ∧ s.2.K < 0) ∨ o = some (-1, 1)) := by
  rcases o with _ | ⟨n, d⟩
  · simp [stepK, hden]
  · have hd : 1 ≤ d := by
      rcases ho with ⟨-, hd⟩ | heq
      · exact hd
      · rw [Prod.mk.injEq] at heq
        omega
    simp only [stepK, setK, multLambdaK]
    refine ⟨one_le_mulI _ _ hden hd, mul_neg_iff_one_le _ _ hd,
      mul_neg_iff_one_le _ _ hd, mul_neg_iff_one_le _ _ hd, ?_⟩
    rw [mul_neg_iff_one_le _ _ hden]
    rcases ho with ⟨hn, -⟩ | heq
    · simp only [reduceCtorEq, false_and, false_or, Option.some.injEq,
        Prod.mk.injEq]
      omega
    · rw [Prod.mk.injEq] at heq
      simp only [reduceCtorEq, false_and, false_or, Option.some.injEq,
        Prod.mk.injEq]
      omega

/-- After option processing: the shared denominator is positive, and a
field is negative (i.e. still the "unspecified" sentinel) exactly when
its option was absent or `AUTO`. -/
theorem processOptions_spec (ol o1 o2 ok : Option (Int × Int))
    (hol : legalFrac ol) (ho1 : legalFrac o1) (ho2 : legalFrac o2)
    (hok : legalFrac ok) :
    1 ≤ (processOptions ol o1 o2 ok).2.denominator ∧
      ((processOptions ol o1 o2 ok).1 < 0 ↔ ol = none ∨ ol = some (-1, 1)) ∧
      ((processOptions ol o1 o2 ok).2.lambda1 < 0 ↔
        o1 = none ∨ o1 = some (-1, 1)) ∧
      ((processOptions ol o1 o2 ok).2.lambda2 < 0 ↔
        o2 = none ∨ o2 = some (-1, 1)) ∧
      ((processOptions ol o1 o2 ok).2.K < 0 ↔
        ok = none ∨ ok = some (-1, 1)) := by
  obtain ⟨d1, l1a, l1b, l1c, l1d⟩ :=
    stepLambda_spec ol (-1, defaultParams) hol (by decide)
  obtain ⟨d2, l2a, l2b, l2c, l2d⟩ :=
    stepLambda1_spec o1 (stepLambda ol (-1, defaultParams)) ho1 d1
  obtain ⟨d3, l3a, l3b, l3c, l3d⟩ :=
    stepLambda2_spec o2 (stepLambda1 o1 (stepLambda ol (-1, defaultParams)))
      ho2 d2
  obtain ⟨d4, l4a, l4b, l4c, l4d⟩ :=
    stepK_spec ok
      (stepLambda2 o2 (stepLambda1 o1 (stepLambda ol (-1, defaultParams))))
      hok d3
  have hl1init : (stepLambda ol (-1, defaultParams)).2.lambda1 < 0 :=
    l1b.mpr (by decide)
  have hl2init : (stepLambda ol (-1, defaultParams)).2.lambda2 < 0 :=
    l1c.mpr (by decide)
  have hKinit : (stepLambda ol (-1, defaultParams)).2.K < 0 :=
    l1d.mpr (by decide)
  refine ⟨d4, ?_, ?_, ?_, ?_⟩
  · rw [show (processOptions ol o1 o2 ok).1 = (stepK ok (stepLambda2 o2
      (stepLambda1 o1 (stepLambda ol (-1, defaultParams))))).1 from rfl,
      l4a, l3a, l2a, l1a]
    simp
  · rw [show (processOptions ol o1 o2 ok).2.lambda1 = (stepK ok (stepLambda2 o2
      (stepLambda1 o1 (stepLambda ol (-1, defaultParams))))).2.lambda1 from rfl,
      l4b, l3b, l2b]
    simp [hl1init]
  · rw [show (processOptions ol o1 o2 ok).2.lambda2 = (stepK ok (stepLambda2 o2
      (stepLambda1 o1 (stepLambda ol (-1, defaultParams))))).2.lambda2 from rfl,
      l4c, l3c]
    have h2i : (stepLambda1 o1 (stepLambda ol (-1, defaultParams))).2.lambda2
        < 0 := l2c.mpr hl2init
    simp [h2i]
  · rw [show (processOptions ol o1 o2 ok).2.K = (stepK ok (stepLambda2 o2
      (stepLambda1 o1 (stepLambda ol (-1, defaultParams))))).2.K from rfl,
      l4d]
    have hKi : (stepLambda2 o2 (stepLambda1 o1 (stepLambda ol
        (-1, defaultParams)))).2.K < 0 := l3d.mpr (l2d.mpr hKinit)
    simp [hKi]

/-! ## The claims -/

/-- C1: for every legal input combination (any bundle with positive
shared denominator, any `lambda`, and a positive automatic `K`
estimate), after `fix_parameters` completes, the greatest common
divisor of the four integers `K`, `lambda1`, `lambda2` and
`denominator` handed to the solver equals 1. -/
theorem C1_group_gcd_one (getK : ℚ) (p0 : Parameters) (lambda0 : Int)
    (hd : 1 ≤ p0.denominator) (hK : 0 < getK) :
    Int.gcd (fix_parameters getK p0 lambda0).params.K
      ((Int.gcd (fix_parameters getK p0 lambda0).params.lambda1
        ((Int.gcd (fix_parameters getK p0 lambda0).params.lambda2
          (fix_parameters getK p0 lambda0).params.denominator : ℕ) : Int) : ℕ)
        : Int) = 1 :=
  (fix_parameters_valid getK p0 lambda0 hd hK).2.2.2.2.1

/-- Witness for C1 at the default bundle with estimate 40. -/
theorem C1_group_gcd_one_witness :
    (1 ≤ defaultParams.denominator ∧ (0 : ℚ) < 40) ∧
      Int.gcd (fix_parameters 40 defaultParams (-1)).params.K
        ((Int.gcd (fix_parameters 40 defaultParams (-1)).params.lambda1
          ((Int.gcd (fix_parameters 40 defaultParams (-1)).params.lambda2
            (fix_parameters 40 defaultParams (-1)).params.denominator : ℕ) :
              Int) : ℕ) : Int) = 1 :=
  ⟨⟨by decide, by norm_num⟩,
    C1_group_gcd_one 40 defaultParams (-1) (by decide) (by norm_num)⟩

/-- C2: when all four coefficients are explicitly supplied as
non-negative fractions (no AUTO sentinel), the finalized ratios
`lambda1/denominator`, `lambda2/denominator` and `K/denominator` are
exactly the user-specified rationals. -/
theorem C2_exact_ratios (getK : ℚ) (nl dl n1 d1 n2 d2 nk dk : Int)
    (hnl : 0 ≤ nl) (hdl : 1 ≤ dl) (hn1 : 0 ≤ n1) (hd1 : 1 ≤ d1)
    (hn2 : 0 ≤ n2) (hd2 : 1 ≤ d2) (hnk : 0 ≤ nk) (hdk : 1 ≤ dk) :
    ((fix_parameters getK
        (processOptions (some (nl, dl)) (some (n1, d1)) (some (n2, d2))
          (some (nk, dk))).2
        (processOptions (some (nl, dl)) (some (n1, d1)) (some (n2, d2))
          (some (nk, dk))).1).params.lambda1 : ℚ) /
        ((fix_parameters getK
          (processOptions (some (nl, dl)) (some (n1, d1)) (some (n2, d2))
            (some (nk, dk))).2
          (processOptions (some (nl, dl)) (some (n1, d1)) (some (n2, d2))
            (some (nk, dk))).1).params.denominator : ℚ)
      = (n1 : ℚ) / (d1 : ℚ) ∧
    ((fix_parameters getK
        (processOptions (some (nl, dl)) (some (n1, d1)) (some (n2, d2))
          (some (nk, dk))).2
        (processOptions (some (nl, dl)) (some (n1, d1)) (some (n2, d2))
          (some (nk, dk))).1).params.lambda2 : ℚ) /
        ((fix_parameters getK
          (processOptions (some (nl, dl)) (some (n1, d1)) (some (n2, d2))
            (some (nk, dk))).2
          (processOptions (some (nl, dl)) (some (n1, d1)) (some (n2, d2))
            (some (nk, dk))).1).params.denominator : ℚ)
      = (n2 : ℚ) / (d2 : ℚ) ∧
    ((fix_parameters getK
        (processOptions (some (nl, dl)) (some (n1, d1)) (some (n2, d2))
          (some (nk, dk))).2
        (processOptions (some (nl, dl)) (some (n1, d1)) (some (n2, d2))
          (some (nk, dk))).1).params.K : ℚ) /
        ((fix_parameters getK
          (processOptions (some (nl, dl)) (some (n1, d1)) (some (n2, d2))
            (some (nk, dk))).2
          (processOptions (some (nl, dl)) (some (n1, d1)) (some (n2, d2))
            (some (nk, dk))).1).params.denominator : ℚ)
      = (nk : ℚ) / (dk : ℚ) := by
  have hl : (processOptions (some (nl, dl)) (some (n1, d1)) (some (n2, d2))
      (some (nk, dk))).1 = nl * 1 * d1 * d2 * dk := rfl
  have hf1 : (processOptions (some (nl, dl)) (some (n1, d1)) (some (n2, d2))
      (some (nk, dk))).2.lambda1 = n1 * (1 * dl) * d2 * dk := rfl
  have hf2 : (processOptions (some (nl, dl)) (some (n1, d1)) (some (n2, d2))
      (some (nk, dk))).2.lambda2 = n2 * (1 * dl * d1) * dk := rfl
  have hfK : (processOptions (some (nl, dl)) (some (n1, d1)) (some (n2, d2))
      (some (nk, dk))).2.K = nk * (1 * dl * d1 * d2) := rfl
  have hfd : (processOptions (some (nl, dl)) (some (n1, d1)) (some (n2, d2))
      (some (nk, dk))).2.denominator = 1 * dl * d1 * d2 * dk := rfl
  have hlam : 0 ≤ (processOptions (some (nl, dl)) (some (n1, d1))
      (some (n2, d2)) (some (nk, dk))).1 := by
    rw [hl]
    exact mul_nonneg (mul_nonneg (mul_nonneg
      (mul_nonneg hnl (by omega)) (by omega)) (by omega)) (by omega)
  have h10 : 0 ≤ (processOptions (some (nl, dl)) (some (n1, d1))
      (some (n2, d2)) (some (nk, dk))).2.lambda1 := by
    rw [hf1]
    exact mul_nonneg (mul_nonneg (mul_nonneg hn1 (by
      exact mul_nonneg (by omega) (by omega))) (by omega)) (by omega)
  have h20 : 0 ≤ (processOptions (some (nl, dl)) (some (n1, d1))
      (some (n2, d2)) (some (nk, dk))).2.lambda2 := by
    rw [hf2]
    exact mul_nonneg (mul_nonneg hn2 (mul_nonneg
      (mul_nonneg (by omega) (by omega)) (by omega))) (by omega)
  have hK0 : 0 ≤ (processOptions (some (nl, dl)) (some (n1, d1))
      (some (n2, d2)) (some (nk, dk))).2.K := by
    rw [hfK]
    exact mul_nonneg hnk (mul_nonneg (mul_nonneg
      (mul_nonneg (by omega) (by omega)) (by omega)) (by omega))
  have hd0 : 1 ≤ (processOptions (some (nl, dl)) (some (n1, d1))
      (some (n2, d2)) (some (nk, dk))).2.denominator := by
    rw [hfd]
    exact one_le_mulI _ _ (one_le_mulI _ _ (one_le_mulI _ _
      (one_le_mulI _ _ (by omega) hdl) hd1) hd2) hdk
  obtain ⟨hqK, hq1, hq2⟩ := fix_parameters_ratio getK _ _ hlam hK0 h10 h20 hd0
  have cdl : ((dl : Int) : ℚ) ≠ 0 := Int.cast_ne_zero.mpr (by omega)
  have cd1 : ((d1 : Int) : ℚ) ≠ 0 := Int.cast_ne_zero.mpr (by omega)
  have cd2 : ((d2 : Int) : ℚ) ≠ 0 := Int.cast_ne_zero.mpr (by omega)
  have cdk : ((dk : Int) : ℚ) ≠ 0 := Int.cast_ne_zero.mpr (by omega)
  refine ⟨?_, ?_, ?_⟩
  · rw [hq1, hf1, hfd]
    push_cast
    field_simp
    ring
  · rw [hq2, hf2, hfd]
    push_cast
    field_simp
    ring
  · rw [hqK, hfK, hfd]
    push_cast
    field_simp
    ring

/-- Witness for C2 at `lambda = 1/2`, `lambda1 = 3/4`, `lambda2 = 5/6`,
`K = 7/8`. -/
theorem C2_exact_ratios_witness :
    ((0 : Int) ≤ 1 ∧ (1 : Int) ≤ 2 ∧ (0 : Int) ≤ 3 ∧ (1 : Int) ≤ 4 ∧
      (0 : Int) ≤ 5 ∧ (1 : Int) ≤ 6 ∧ (0 : Int) ≤ 7 ∧ (1 : Int) ≤ 8) ∧
    (((fix_parameters 1
        (processOptions (some (1, 2)) (some (3, 4)) (some (5, 6))
          (some (7, 8))).2
        (processOptions (some (1, 2)) (some (3, 4)) (some (5, 6))
          (some (7, 8))).1).params.lambda1 : ℚ) /
        ((fix_parameters 1
          (processOptions (some (1, 2)) (some (3, 4)) (some (5, 6))
            (some (7, 8))).2
          (processOptions (some (1, 2)) (some (3, 4)) (some (5, 6))
            (some (7, 8))).1).params.denominator : ℚ)
      = ((3 : Int) : ℚ) / ((4 : Int) : ℚ) ∧
    ((fix_parameters 1
        (processOptions (some (1, 2)) (some (3, 4)) (some (5, 6))
          (some (7, 8))).2
        (processOptions (some (1, 2)) (some (3, 4)) (some (5, 6))
          (some (7, 8))).1).params.lambda2 : ℚ) /
        ((fix_parameters 1
          (processOptions (some (1, 2)) (some (3, 4)) (some (5, 6))
            (some (7, 8))).2
          (processOptions (some (1, 2)) (some (3, 4)) (some (5, 6))
            (some (7, 8))).1).params.denominator : ℚ)
      = ((5 : Int) : ℚ) / ((6 : Int) : ℚ) ∧
    ((fix_parameters 1
        (processOptions (some (1, 2)) (some (3, 4)) (some (5, 6))
          (some (7, 8))).2
        (processOptions (some (1, 2)) (some (3, 4)) (some (5, 6))
          (some (7, 8))).1).params.K : ℚ) /
        ((fix_parameters 1
          (processOptions (some (1, 2)) (some (3, 4)) (some (5, 6))
            (some (7, 8))).2
          (processOptions (some (1, 2)) (some (3, 4)) (some (5, 6))
            (some (7, 8))).1).params.denominator : ℚ)
      = ((7 : Int) : ℚ) / ((8 : Int) : ℚ)) :=
  ⟨⟨by decide, by decide, by decide, by decide, by decide, by decide,
    by decide, by decide⟩,
    C2_exact_ratios 1 1 2 3 4 5 6 7 8 (by decide) (by decide) (by decide)
      (by decide) (by decide) (by decide) (by decide) (by decide)⟩

/-- C3: each of the four rescale operations, on a bundle with positive
shared denominator and for any positive new denominator, leaves the
rational value of every field other than its target unchanged. -/
theorem C3_rescale_preserves_values (lam den : Int) (p : Parameters)
    (hden : 0 < den) (hp : 0 < p.denominator) :
    (((setLambda lam den p).2.lambda1 : ℚ) /
          ((setLambda lam den p).2.denominator : ℚ)
        = (p.lambda1 : ℚ) / (p.denominator : ℚ) ∧
      ((setLambda lam den p).2.lambda2 : ℚ) /
          ((setLambda lam den p).2.denominator : ℚ)
        = (p.lambda2 : ℚ) / (p.denominator : ℚ) ∧
      ((setLambda lam den p).2.K : ℚ) /
          ((setLambda lam den p).2.denominator : ℚ)
        = (p.K : ℚ) / (p.denominator : ℚ)) ∧
    (((setLambda1 lam den p).1 : ℚ) /
          ((setLambda1 lam den p).2.denominator : ℚ)
        = (lam : ℚ) / (p.denominator : ℚ) ∧
      ((setLambda1 lam den p).2.lambda2 : ℚ) /
          ((setLambda1 lam den p).2.denominator : ℚ)
        = (p.lambda2 : ℚ) / (p.denominator : ℚ) ∧
      ((setLambda1 lam den p).2.K : ℚ) /
          ((setLambda1 lam den p).2.denominator : ℚ)
        = (p.K : ℚ) / (p.denominator : ℚ)) ∧
    (((setLambda2 lam den p).1 : ℚ) /
          ((setLambda2 lam den p).2.denominator : ℚ)
        = (lam : ℚ) / (p.denominator : ℚ) ∧
      ((setLambda2 lam den p).2.lambda1 : ℚ) /
          ((setLambda2 lam den p).2.denominator : ℚ)
        = (p.lambda1 : ℚ) / (p.denominator : ℚ) ∧
      ((setLambda2 lam den p).2.K : ℚ) /
          ((setLambda2 lam den p).2.denominator : ℚ)
        = (p.K : ℚ) / (p.denominator : ℚ)) ∧
    (((setK lam den p).1 : ℚ) / ((setK lam den p).2.denominator : ℚ)
        = (lam : ℚ) / (p.denominator : ℚ) ∧
      ((setK lam den p).2.lambda1 : ℚ) /
          ((setK lam den p).2.denominator : ℚ)
        = (p.lambda1 : ℚ) / (p.denominator : ℚ) ∧
      ((setK lam den p).2.lambda2 : ℚ) /
          ((setK lam den p).2.denominator : ℚ)
        = (p.lambda2 : ℚ) / (p.denominator : ℚ)) := by
  have hdQ : ((den : Int) : ℚ) ≠ 0 := Int.cast_ne_zero.mpr (by omega)
  simp only [setLambda, setLambda1, setLambda2, setK, multLambdaK]
  push_cast
  refine ⟨⟨?_, ?_, ?_⟩, ⟨?_, ?_, ?_⟩, ⟨?_, ?_, ?_⟩, ⟨?_, ?_, ?_⟩⟩ <;>
    rw [mul_div_mul_right _ _ hdQ]

/-- Witness for C3 at a concrete bundle. -/
theorem C3_rescale_preserves_values_witness :
    ((0 : Int) < 3 ∧ (0 : Int) < defaultParams.denominator) ∧
      ((setLambda 7 3 defaultParams).2.lambda1 : ℚ) /
          ((setLambda 7 3 defaultParams).2.denominator : ℚ)
        = (defaultParams.lambda1 : ℚ) / (defaultParams.denominator : ℚ) :=
  ⟨⟨by decide, by decide⟩,
    (C3_rescale_preserves_values 7 3 defaultParams (by decide)
      (by decide)).1.1⟩

/-- C4 counterexample: the claim says the decoder fails on every input
that is not `AUTO`, `<int>/<int>` or a plain `<int>`; but on `"5x"`
(trailing non-numeric garbage) the decoder succeeds with `(5, 1)`,
because `sscanf` ignores trailing characters after a parsed prefix. -/
theorem C4_counterexample : GetFraction "5x" (-1) 1 = (true, 5, 1) := by
  decide

/-- C4 amended: `AUTO` yields `(-1,1)`; `<int>/<int>` and `<int>`
inputs yield the expected pairs, but trailing characters after a parsed
prefix are ignored (e.g. `"5x"` decodes as `(5,1)`); a negative
numerator (other than AUTO) or a denominator below 1 fails; an input
with no parsable leading integer fails (the caller's prior sentinel
values being negative); and every success has numerator ≥ 0 and
denominator ≥ 1. -/
theorem C4_amended_decoder (s : String) (num0 den0 : Int) :
    GetFraction "AUTO" num0 den0 = (true, -1, 1) ∧
    GetFraction "3/4" num0 den0 = (true, 3, 4) ∧
    GetFraction "5" num0 den0 = (true, 5, 1) ∧
    GetFraction "5x" num0 den0 = (true, 5, 1) ∧
    (GetFraction "-1/2" num0 den0).1 = false ∧
    (GetFraction "3/0" num0 den0).1 = false ∧
    (num0 < 0 → s ≠ "AUTO" → scanInt s.data = none →
      (GetFraction s num0 den0).1 = false) ∧
    (s ≠ "AUTO" → (GetFraction s num0 den0).1 = true →
      0 ≤ (GetFraction s num0 den0).2.1 ∧ 1 ≤ (GetFraction s num0 den0).2.2) := by
  refine ⟨rfl, rfl, rfl, rfl, rfl, rfl, ?_, ?_⟩
  · intro hneg hs hscan
    unfold GetFraction
    rw [if_neg hs, hscan]
    show decide (0 ≤ num0 ∧ 1 ≤ den0) = false
    rw [decide_eq_false_iff_not]
    omega
  · intro hs hok
    unfold GetFraction at hok ⊢
    rw [if_neg hs] at hok ⊢
    exact of_decide_eq_true hok

/-- Witness for C4's amended claim at input `"abc"` with sentinel prior
values. -/
theorem C4_amended_decoder_witness :
    ((-1 : Int) < 0 ∧ "abc" ≠ "AUTO" ∧ scanInt "abc".data = none) ∧
      (GetFraction "abc" (-1) 1).1 = false :=
  ⟨⟨by decide, by decide, by decide⟩,
    (C4_amended_decoder "abc" (-1) 1).2.2.2.2.2.2.1 (by decide) (by decide)
      (by decide)⟩

/-- C5 counterexample: with `lambda = 2` and everything else
unspecified, the code resolves `K = 10`, `lambda1 = 6`, `lambda2 = 2`
over denominator 1; the group gcd `gcd(10, gcd(6, gcd(2, 1)))` is 1
(the denominator participates), so no reduction to `K = 5` happens,
contrary to the claim. -/
theorem C5_counterexample :
    (fix_parameters 1 (processOptions (some (2, 1)) none none none).2
        (processOptions (some (2, 1)) none none none).1).params.K = 10 ∧
    (fix_parameters 1 (processOptions (some (2, 1)) none none none).2
        (processOptions (some (2, 1)) none none none).1).params.lambda1 = 6 ∧
    (fix_parameters 1 (processOptions (some (2, 1)) none none none).2
        (processOptions (some (2, 1)) none none none).1).params.lambda2 = 2 ∧
    (fix_parameters 1 (processOptions (some (2, 1)) none none none).2
        (processOptions (some (2, 1)) none none none).1).params.denominator
      = 1 ∧
    (fix_parameters 1 (processOptions (some (2, 1)) none none none).2
        (processOptions (some (2, 1)) none none none).1).params.K ≠ 5 := by
  refine ⟨?_, ?_, ?_, ?_, ?_⟩ <;>
    · rw [show (processOptions (some (2, 1)) none none none)
        = ((2 : Int),
          (⟨DataCost.L2, 1, 8, -1, -1, -1, 4, false⟩ : Parameters)) from rfl]
      norm_num [fix_parameters, fixPhase1, fixDefaults, fixReduce, reducePair,
        cgcd_eq_gcd]

/-- C5 amended: with `lambda = 2` and `K`, `lambda1`, `lambda2`
unspecified, finalization resolves `K = 10`, `lambda1 = 6`,
`lambda2 = 2`; the group gcd (which includes the denominator 1) is 1,
so no reduction occurs and the final Parameter Set is `K = 10`,
`lambda1 = 6`, `lambda2 = 2`, `denominator = 1`, with reported
`lambda = 2` over `denomLambda = 1`. -/
theorem C5_amended_defaults :
    (fix_parameters 1 (processOptions (some (2, 1)) none none none).2
        (processOptions (some (2, 1)) none none none).1).params.K = 10 ∧
    (fix_parameters 1 (processOptions (some (2, 1)) none none none).2
        (processOptions (some (2, 1)) none none none).1).params.lambda1 = 6 ∧
    (fix_parameters 1 (processOptions (some (2, 1)) none none none).2
        (processOptions (some (2, 1)) none none none).1).params.lambda2 = 2 ∧
    (fix_parameters 1 (processOptions (some (2, 1)) none none none).2
        (processOptions (some (2, 1)) none none none).1).params.denominator
      = 1 ∧
    (fix_parameters 1 (processOptions (some (2, 1)) none none none).2
        (processOptions (some (2, 1)) none none none).1).lambda = 2 ∧
    (fix_parameters 1 (processOptions (some (2, 1)) none none none).2
        (processOptions (some (2, 1)) none none none).1).denomLambda = 1 ∧
    Int.gcd (10 : Int) ((Int.gcd (6 : Int) ((Int.gcd (2 : Int) (1 : Int) : ℕ)
      : Int) : ℕ) : Int) = 1 := by
  refine ⟨?_, ?_, ?_, ?_, ?_, ?_, by norm_num⟩ <;>
    · rw [show (processOptions (some (2, 1)) none none none)
        = ((2 : Int),
          (⟨DataCost.L2, 1, 8, -1, -1, -1, 4, false⟩ : Parameters)) from rfl]
      norm_num [fix_parameters, fixPhase1, fixDefaults, fixReduce, reducePair,
        cgcd_eq_gcd]

/-- C6: with everything unspecified and an automatic `K` estimate of
40, the working value `40/5 = 8` is already at least 3, so no doubling
occurs and `lambda = 8` is reported over denominator 1; in general the
doubling loop multiplies the working value and the scale counter
(started at 1) by 2 the minimal number of times needed to reach 3. -/
theorem C6_auto_lambda_scenario :
    ((fix_parameters 40 defaultParams (-1)).lambda = 8 ∧
      (fix_parameters 40 defaultParams (-1)).denomLambda = 1) ∧
    ∀ w : ℚ, 0 < w → ∃ j : ℕ,
      doubleLoop w 1 = (w * 2 ^ j, (2 : Int) ^ j) ∧ 3 ≤ w * 2 ^ j ∧
        ∀ i < j, w * 2 ^ i < 3 := by
  constructor
  · constructor <;>
      norm_num [fix_parameters, fixPhase1, fixDefaults, fixReduce, reducePair,
        cgcd_eq_gcd, defaultParams, doubleLoop, loopFuel, doubleLoopF, truncQ,
        setLambda, multLambdaK, (by decide : Int.tdiv 17 2 = 8)]
  · intro w hw
    obtain ⟨j, heq, hge, hmin⟩ := doubleLoop_spec w hw 1
    refine ⟨j, ?_, hge, hmin⟩
    rw [heq, one_mul]

/-- Witness for C6's doubling-loop clause at working value 7. -/
theorem C6_auto_lambda_scenario_witness :
    (0 : ℚ) < 7 ∧ ∃ j : ℕ,
      doubleLoop 7 1 = ((7 : ℚ) * 2 ^ j, (2 : Int) ^ j) ∧
        3 ≤ (7 : ℚ) * 2 ^ j ∧ ∀ i < j, (7 : ℚ) * 2 ^ i < 3 :=
  ⟨by norm_num, C6_auto_lambda_scenario.2 7 (by norm_num)⟩

/-- C7: numeric normalization terminates with valid integers — the
doubling loop exits (with the closed-form doubled state) for every
positive working value, the recursive Euclidean gcd agrees with the
mathematical gcd on the non-negative inputs it receives, and
`fix_parameters` always returns non-negative coefficients with
positive denominators; it has no failure path. -/
theorem C7_normalization_terminates :
    (∀ w : ℚ, 0 < w → ∀ d : Int, ∃ j : ℕ,
        doubleLoop w d = (w * 2 ^ j, d * 2 ^ j) ∧ 3 ≤ w * 2 ^ j) ∧
    (∀ a b : Int, 0 ≤ a → 0 ≤ b → cgcd a b = ((Int.gcd a b : ℕ) : Int)) ∧
    (∀ (getK : ℚ) (p0 : Parameters) (lambda0 : Int),
      1 ≤ p0.denominator → 0 < getK →
        0 ≤ (fix_parameters getK p0 lambda0).params.K ∧
        0 ≤ (fix_parameters getK p0 lambda0).params.lambda1 ∧
        0 ≤ (fix_parameters getK p0 lambda0).params.lambda2 ∧
        1 ≤ (fix_parameters getK p0 lambda0).params.denominator ∧
        0 ≤ (fix_parameters getK p0 lambda0).lambda ∧
        1 ≤ (fix_parameters getK p0 lambda0).denomLambda) := by
  refine ⟨?_, ?_, ?_⟩
  · intro w hw d
    obtain ⟨j, heq, hge, -⟩ := doubleLoop_spec w hw d
    exact ⟨j, heq, hge⟩
  · intro a b ha hb
    exact cgcd_eq_gcd a b ha hb
  · intro getK p0 lambda0 hd hK
    obtain ⟨h1, h2, h3, h4, -, h6, h7⟩ := fix_parameters_valid getK p0 lambda0 hd hK
    exact ⟨h1, h2, h3, h4, h6, h7⟩

/-- Witness for C7 at the default bundle with estimate 8. -/
theorem C7_normalization_terminates_witness :
    (1 ≤ defaultParams.denominator ∧ (0 : ℚ) < 8) ∧
      (0 ≤ (fix_parameters 8 defaultParams (-1)).params.K ∧
        0 ≤ (fix_parameters 8 defaultParams (-1)).params.lambda1 ∧
        0 ≤ (fix_parameters 8 defaultParams (-1)).params.lambda2 ∧
        1 ≤ (fix_parameters 8 defaultParams (-1)).params.denominator ∧
        0 ≤ (fix_parameters 8 defaultParams (-1)).lambda ∧
        1 ≤ (fix_parameters 8 defaultParams (-1)).denomLambda) :=
  ⟨⟨by decide, by norm_num⟩,
    C7_normalization_terminates.2.2 8 defaultParams (-1) (by decide)
      (by norm_num)⟩

/-- The trace of phase 1 is either empty or the provisional
`SetParameters` call followed by the `GetK` query. -/
theorem fixPhase1_trace_cases (getK : ℚ) (p : Parameters) (l : Int) :
    (fixPhase1 getK p l).2.2 = [] ∨
      (fixPhase1 getK p l).2.2 = [Ev.setParams p, Ev.queryK] := by
  unfold fixPhase1
  by_cases h1 : l < 0
  · rw [if_pos h1]
    by_cases h2 : p.K ≤ 0
    · right
      simp [h2]
    · left
      simp [h2]
  · rw [if_neg h1]
    left
    rfl

/-- The `fix_parameters` trace contains no expansion-move call. -/
theorem fix_trace_no_kz2 (getK : ℚ) (p : Parameters) (l : Int) :
    List.countP isKZ2 (fix_parameters getK p l).trace = 0 := by
  rw [fix_parameters_trace, List.countP_append]
  rcases fixPhase1_trace_cases getK p l with h | h <;> rw [h] <;> rfl

/-- C8: with exactly 4 positional arguments (`argc = 5`) and no output
flag, the run's trace contains no expansion-move (`KZ2`) call and the
resolved parameters are printed; with a 5th positional argument
(`argc > 5`) or an output flag, `KZ2` appears exactly once. -/
theorem C8_mode_selection (getK : ℚ) (ol o1 o2 ok : Option (Int × Int))
    (argc : Nat) (sDisp : String) :
    (argc = 5 → sDisp = "" →
      List.countP isKZ2 (runTrace getK ol o1 o2 ok argc sDisp) = 0 ∧
        Ev.printK ∈ runTrace getK ol o1 o2 ok argc sDisp) ∧
    (5 < argc ∨ sDisp ≠ "" →
      List.countP isKZ2 (runTrace getK ol o1 o2 ok argc sDisp) = 1) := by
  have hfix : List.countP isKZ2 (fix_parameters getK
      (processOptions ol o1 o2 ok).2 (processOptions ol o1 o2 ok).1).trace
      = 0 := fix_trace_no_kz2 getK _ _
  constructor
  · intro h5 hdisp
    constructor
    · show List.countP isKZ2 ((fix_parameters getK
        (processOptions ol o1 o2 ok).2 (processOptions ol o1 o2 ok).1).trace
          ++ outputPhase argc sDisp) = 0
      rw [List.countP_append, hfix]
      unfold outputPhase
      rw [if_neg (by simp [h5, hdisp])]
      rfl
    · show Ev.printK ∈ (fix_parameters getK
        (processOptions ol o1 o2 ok).2 (processOptions ol o1 o2 ok).1).trace
          ++ outputPhase argc sDisp
      apply List.mem_append_right
      unfold outputPhase
      rw [if_neg (by simp [h5, hdisp])]
      simp
  · intro hcond
    show List.countP isKZ2 ((fix_parameters getK
      (processOptions ol o1 o2 ok).2 (processOptions ol o1 o2 ok).1).trace
        ++ outputPhase argc sDisp) = 1
    rw [List.countP_append, hfix]
    unfold outputPhase
    rw [if_pos hcond]
    rw [List.countP_append, List.countP_append]
    split <;> split <;> rfl

/-- Witness for C8 in both modes at concrete arguments. -/
theorem C8_mode_selection_witness :
    List.countP isKZ2 (runTrace 1 none none none none 5 "") = 0 ∧
      List.countP isKZ2 (runTrace 1 none none none none 6 "") = 1 :=
  ⟨((C8_mode_selection 1 none none none none 5 "").1 rfl rfl).1,
    (C8_mode_selection 1 none none none none 6 "").2 (Or.inl (by omega))⟩

/-- C9: the `fix_parameters` trace ends with the authoritative
`SetParameters` call whose argument is exactly the Parameter Set
returned (the later reduction of the reporting pair touches only
`lambda`/`denomLambda`); at most one (provisional) `SetParameters`
precedes it, and the output phase of `main` performs no further
`SetParameters` call. -/
theorem C9_single_authoritative_handoff (getK : ℚ)
    (ol o1 o2 ok : Option (Int × Int)) (argc : Nat) (sDisp : String) :
    (∃ pre : List Ev,
      (fix_parameters getK (processOptions ol o1 o2 ok).2
          (processOptions ol o1 o2 ok).1).trace =
        pre ++ [Ev.setParams (fix_parameters getK
          (processOptions ol o1 o2 ok).2
          (processOptions ol o1 o2 ok).1).params] ∧
      List.countP isSetParams pre ≤ 1) ∧
    List.countP isSetParams (outputPhase argc sDisp) = 0 := by
  constructor
  · refine ⟨(fixPhase1 getK (processOptions ol o1 o2 ok).2
      (processOptions ol o1 o2 ok).1).2.2, fix_parameters_trace _ _ _, ?_⟩
    rcases fixPhase1_trace_cases getK (processOptions ol o1 o2 ok).2
      (processOptions ol o1 o2 ok).1 with h | h <;> rw [h] <;>
      simp [isSetParams]
  · unfold outputPhase
    split
    · rw [List.countP_append, List.countP_append]
      split <;> split <;> rfl
    · rfl

/-- C10: each rescale operation multiplies every field by a factor
that is at least 1, so it preserves the sign of `lambda`, `lambda1`,
`lambda2` and `K` exactly and keeps the shared denominator positive;
consequently, after any legal sequence of per-coefficient overrides, a
field is negative (still recognized as unspecified by finalization)
exactly when its option was absent or `AUTO`, and the shared
denominator is positive. -/
theorem C10_sign_invariant :
    (∀ (lam den : Int) (p : Parameters), 1 ≤ den → 1 ≤ p.denominator →
      (((setLambda lam den p).1 < 0 ↔ lam < 0) ∧
        ((setLambda lam den p).2.lambda1 < 0 ↔ p.lambda1 < 0) ∧
        ((setLambda lam den p).2.lambda2 < 0 ↔ p.lambda2 < 0) ∧
        ((setLambda lam den p).2.K < 0 ↔ p.K < 0) ∧
        1 ≤ (setLambda lam den p).2.denominator) ∧
      (((setLambda1 lam den p).1 < 0 ↔ lam < 0) ∧
        ((setLambda1 lam den p).2.lambda1 < 0 ↔ p.lambda1 < 0) ∧
        ((setLambda1 lam den p).2.lambda2 < 0 ↔ p.lambda2 < 0) ∧
        ((setLambda1 lam den p).2.K < 0 ↔ p.K < 0) ∧
        1 ≤ (setLambda1 lam den p).2.denominator) ∧
      (((setLambda2 lam den p).1 < 0 ↔ lam < 0) ∧
        ((setLambda2 lam den p).2.lambda1 < 0 ↔ p.lambda1 < 0) ∧
        ((setLambda2 lam den p).2.lambda2 < 0 ↔ p.lambda2 < 0) ∧
        ((setLambda2 lam den p).2.K < 0 ↔ p.K < 0) ∧
        1 ≤ (setLambda2 lam den p).2.denominator) ∧
      (((setK lam den p).1 < 0 ↔ lam < 0) ∧
        ((setK lam den p).2.lambda1 < 0 ↔ p.lambda1 < 0) ∧
        ((setK lam den p).2.lambda2 < 0 ↔ p.lambda2 < 0) ∧
        ((setK lam den p).2.K < 0 ↔ p.K < 0) ∧
        1 ≤ (setK lam den p).2.denominator)) ∧
    (∀ ol o1 o2 ok : Option (Int × Int), legalFrac ol → legalFrac o1 →
      legalFrac o2 → legalFrac ok →
      1 ≤ (processOptions ol o1 o2 ok).2.denominator ∧
        ((processOptions ol o1 o2 ok).1 < 0 ↔
          ol = none ∨ ol = some (-1, 1)) ∧
        ((processOptions ol o1 o2 ok).2.lambda1 < 0 ↔
          o1 = none ∨ o1 = some (-1, 1)) ∧
        ((processOptions ol o1 o2 ok).2.lambda2 < 0 ↔
          o2 = none ∨ o2 = some (-1, 1)) ∧
        ((processOptions ol o1 o2 ok).2.K < 0 ↔
          ok = none ∨ ok = some (-1, 1))) := by
  constructor
  · intro lam den p hden hp
    simp only [setLambda, setLambda1, setLambda2, setK, multLambdaK]
    exact ⟨⟨mul_neg_iff_one_le _ _ hp, mul_neg_iff_one_le _ _ hden,
        mul_neg_iff_one_le _ _ hden, mul_neg_iff_one_le _ _ hden,
        one_le_mulI _ _ hp hden⟩,
      ⟨mul_neg_iff_one_le _ _ hden, mul_neg_iff_one_le _ _ hp,
        mul_neg_iff_one_le _ _ hden, mul_neg_iff_one_le _ _ hden,
        one_le_mulI _ _ hp hden⟩,
      ⟨mul_neg_iff_one_le _ _ hden, mul_neg_iff_one_le _ _ hden,
        mul_neg_iff_one_le _ _ hp, mul_neg_iff_one_le _ _ hden,
        one_le_mulI _ _ hp hden⟩,
      ⟨mul_neg_iff_one_le _ _ hden, mul_neg_iff_one_le _ _ hden,
        mul_neg_iff_one_le _ _ hden, mul_neg_iff_one_le _ _ hp,
        one_le_mulI _ _ hp hden⟩⟩
  · intro ol o1 o2 ok hol ho1 ho2 hok
    exact processOptions_spec ol o1 o2 ok hol ho1 ho2 hok

/-- Witness for C10: `lambda = 3/2` explicit, `lambda1` absent,
`lambda2 = AUTO`, `K = 0/7` explicit. -/
theorem C10_sign_invariant_witness :
    (legalFrac (some (3, 2)) ∧ legalFrac (none : Option (Int × Int)) ∧
      legalFrac (some (-1, 1)) ∧ legalFrac (some (0, 7))) ∧
    (1 ≤ (processOptions (some (3, 2)) none (some (-1, 1))
        (some (0, 7))).2.denominator ∧
      ((processOptions (some (3, 2)) none (some (-1, 1))
          (some (0, 7))).1 < 0 ↔
        (some (3, 2) : Option (Int × Int)) = none ∨
          (some (3, 2) : Option (Int × Int)) = some (-1, 1)) ∧
      ((processOptions (some (3, 2)) none (some (-1, 1))
          (some (0, 7))).2.lambda1 < 0 ↔
        (none : Option (Int × Int)) = none ∨
          (none : Option (Int × Int)) = some (-1, 1)) ∧
      ((processOptions (some (3, 2)) none (some (-1, 1))
          (some (0, 7))).2.lambda2 < 0 ↔
        (some (-1, 1) : Option (Int × Int)) = none ∨
          (some (-1, 1) : Option (Int × Int)) = some (-1, 1)) ∧
      ((processOptions (some (3, 2)) none (some (-1, 1))
          (some (0, 7))).2.K < 0 ↔
        (some (0, 7) : Option (Int × Int)) = none ∨
          (some (0, 7) : Option (Int × Int)) = some (-1, 1))) :=
  ⟨⟨Or.inl (by decide), trivial, Or.inr (by decide), Or.inl (by decide)⟩,
    C10_sign_invariant.2 (some (3, 2)) none (some (-1, 1)) (some (0, 7))
      (Or.inl (by decide)) trivial (Or.inr (by decide)) (Or.inl (by decide))⟩

end DisparityGC
